import Mathlib

/-!
Verification of the s3downloader transfer engine
(`internal/aws/downloader.go`, `pkg/fileutils/fileutils.go`).

The Go code is shallowly embedded: the filesystem and the S3 SDK are
oracles (`Env`), a worker's processing of one object is a pure function
emitting counter-mutation events, forwarded errors and an ordered trace
of filesystem/network actions, and the orchestration of
`ListAndDownloadObjects` is a pure function over the listing result and
those oracles.  Path manipulation reimplements Go's `path/filepath`
(`Base`, `Clean`, `Join`, `Dir`) for Unix separators at the
`List Char` level.
-/

namespace S3Down

/-! ## Go path/filepath (Unix), at the character-list level -/

/-- Drop trailing '/' characters (the stripping loop of `filepath.Base`). -/
def stripTrailingSeps (cs : List Char) : List Char :=
  (cs.reverse.dropWhile (fun c => c = '/')).reverse

/-- The suffix after the last '/', or the whole list when there is none. -/
def afterLastSlash (cs : List Char) : List Char :=
  (cs.reverse.takeWhile (fun c => ¬ c = '/')).reverse

/-- Everything up to and including the last '/'; `[]` when there is none.
This is `path[0:i+1]` in Go's `filepath.Dir`, where `i` is the index of the
last separator. -/
def upToLastSlash (cs : List Char) : List Char :=
  (cs.reverse.dropWhile (fun c => ¬ c = '/')).reverse

/-- Split on '/' (like `strings.Split(s, "/")`): `splitSlashL []` is `[[]]`,
every separator starts a new group, and a non-separator is prepended to
the first group (the result is never empty). -/
def splitSlashL : List Char → List (List Char)
  | [] => [[]]
  | c :: rest =>
      let r := splitSlashL rest
      if c = '/' then [] :: r else (c :: r.headD []) :: r.tail

/-- Join character-list components with '/' (like `strings.Join(css, "/")`). -/
def charJoin : List (List Char) → List Char
  | [] => []
  | [c] => c
  | c :: rest => c ++ '/' :: charJoin rest

/-- One component step of Go's `filepath.Clean` (Unix): empty and "."
components are dropped, ".." pops the previous real component (or is kept
when unrooted and nothing can be popped, or dropped at the root), every
other component is kept.  `out` holds the kept components in reverse. -/
def cleanStepL (rooted : Bool) (out : List (List Char)) (e : List Char) : List (List Char) :=
  if e = [] ∨ e = ['.'] then out
  else if e = ['.', '.'] then
    match out with
    | [] => if rooted then [] else [['.', '.']]
    | o :: rest => if o = ['.', '.'] then ['.', '.'] :: o :: rest else rest
  else e :: out

/-- Go `filepath.Clean` (Unix): component-wise normalization.  Returns "."
for an empty result, keeps a leading '/' for rooted paths. -/
def cleanL (path : List Char) : List Char :=
  if path = [] then ['.']
  else
    let rooted := path.head? = some '/'
    let comps := ((splitSlashL path).foldl (cleanStepL (decide rooted)) []).reverse
    let res := (if rooted then ['/'] else []) ++ charJoin comps
    if res = [] then ['.'] else res

/-- Go `filepath.Base` (Unix): strip trailing separators, take the part
after the last remaining separator; "." for the empty path, "/" when the
path is all separators. -/
def baseL (path : List Char) : List Char :=
  if path = [] then ['.']
  else
    let cs := stripTrailingSeps path
    let last := afterLastSlash cs
    if last = [] then ['/'] else last

/-- Go `filepath.Join(a, b)` (Unix): skip leading empty elements, join the
rest with '/' and `Clean` the result; "" when both are empty. -/
def joinL (a b : List Char) : List Char :=
  if a = [] then (if b = [] then [] else cleanL b)
  else cleanL (a ++ '/' :: b)

/-- Go `filepath.Dir` (Unix): `Clean` of everything up to and including the
last separator. -/
def dirL (path : List Char) : List Char :=
  cleanL (upToLastSlash path)

/-- `filepath.Base` on strings. -/
def filepathBase (s : String) : String := ⟨baseL s.data⟩

/-- `filepath.Clean` on strings. -/
def filepathClean (s : String) : String := ⟨cleanL s.data⟩

/-- `filepath.Join` on strings (two arguments, as used by the worker). -/
def filepathJoin (a b : String) : String := ⟨joinL a.data b.data⟩

/-- `filepath.Dir` on strings. -/
def filepathDir (s : String) : String := ⟨dirL s.data⟩

/-! ## Data model

`s3.Object` carries the listed key and size (`*string` / `*int64`,
dereferenced by the worker through `aws.StringValue` / `aws.Int64Value`),
`progress.Progress` is the published snapshot struct, and the five local
`int64` counters of `ListAndDownloadObjects` form `Counters`.  Counter
values stay far below `2^63` in every run considered, so `int64`
arithmetic is embedded as `Int` without wraparound. -/

/-- An S3 object descriptor as consumed by the downloader. -/
structure S3Object where
  key : String
  size : Int
deriving Repr, DecidableEq

/-- The `progress.Progress` struct. -/
structure Progress where
  filesFound : Int
  filesDownloaded : Int
  filesSkipped : Int
  totalBytes : Int
  errorCount : Int
deriving Repr, DecidableEq

/-- The five atomic counters declared in `ListAndDownloadObjects`. -/
structure Counters where
  foundFiles : Int
  processedFiles : Int
  skippedFiles : Int
  totalBytes : Int
  errorCount : Int
deriving Repr, DecidableEq

/-- Fresh counters at the start of an invocation. -/
def Counters.init : Counters := ⟨0, 0, 0, 0, 0⟩

/-- Componentwise order on the counter set. -/
def Counters.le (a b : Counters) : Prop :=
  a.foundFiles ≤ b.foundFiles ∧ a.processedFiles ≤ b.processedFiles ∧
  a.skippedFiles ≤ b.skippedFiles ∧ a.totalBytes ≤ b.totalBytes ∧
  a.errorCount ≤ b.errorCount

/-- The distinguishable error values produced by the engine.  Each
constructor stands for one `errors.New` / `fmt.Errorf` site in
`downloader.go` or `fileutils.go`; the wrapped key is kept, the
human-readable text is not. -/
inductive GoError where
  /-- `ErrDownloadCanceled` (downloader.go line 25). -/
  | downloadCanceled : GoError
  /-- "failed to create directory for key" (worker, line 292). -/
  | mkdirFailed (key : String) : GoError
  /-- "failed to create parent directory for key" (downloadFile, line 356). -/
  | parentMkdirFailed (key : String) : GoError
  /-- "failed to create file key" (downloadFile, line 362). -/
  | createFailed (key : String) : GoError
  /-- "failed to download key" (downloadFile, line 390). -/
  | downloadFailed (key : String) : GoError
  /-- "error listing objects" (lister goroutine, line 201). -/
  | listingFailed : GoError
deriving Repr, DecidableEq

/-- Result of one `s3manager.Downloader.DownloadWithContext` call. -/
inductive SdkResult where
  | ok : SdkResult
  | canceled : SdkResult
  | failed : SdkResult
deriving Repr, DecidableEq

/-- Oracles for the external world: filesystem probes/mutations and the
S3 SDK.  Each field gives the outcome of the corresponding system call at
the moment the engine performs it. -/
structure Env where
  /-- `os.Stat(path)` succeeds (`fileutils.FileExists`). -/
  statOk : String → Bool
  /-- `os.MkdirAll(path, os.ModePerm)` succeeds. -/
  mkdirAllOk : String → Bool
  /-- `os.Create(path)` succeeds. -/
  createOk : String → Bool
  /-- `DownloadWithContext` outcome for the given object key. -/
  download : String → SdkResult

/-- Filesystem / network operations, recorded in the order the engine
performs them. -/
inductive Action where
  | statFile (path : String) : Action
  | mkdirAll (path : String) : Action
  | createFile (path : String) : Action
  | download (bucket key : String) : Action
  | removeFile (path : String) : Action
deriving Repr, DecidableEq

/-- One atomic counter mutation (`atomic.AddInt64` on one of the five
counters, with the added amount). -/
inductive CounterEvent where
  | addFound (n : Int) : CounterEvent
  | addProcessed (n : Int) : CounterEvent
  | addSkipped (n : Int) : CounterEvent
  | addBytes (n : Int) : CounterEvent
  | addErrors (n : Int) : CounterEvent
deriving Repr, DecidableEq

/-- The amount added by a counter event. -/
def CounterEvent.amount : CounterEvent → Int
  | .addFound n => n
  | .addProcessed n => n
  | .addSkipped n => n
  | .addBytes n => n
  | .addErrors n => n

/-- Apply one atomic mutation to the counter set. -/
def applyEvent (c : Counters) : CounterEvent → Counters
  | .addFound n => { c with foundFiles := c.foundFiles + n }
  | .addProcessed n => { c with processedFiles := c.processedFiles + n }
  | .addSkipped n => { c with skippedFiles := c.skippedFiles + n }
  | .addBytes n => { c with totalBytes := c.totalBytes + n }
  | .addErrors n => { c with errorCount := c.errorCount + n }

/-- Apply a sequence of atomic mutations in order. -/
def applyEvents (c : Counters) (es : List CounterEvent) : Counters :=
  es.foldl applyEvent c

/-! ## fileutils -/

/-- `fileutils.EnsureDirectoryExists`: rejects the empty path, otherwise
`os.MkdirAll`.  Returns success together with the actions performed. -/
def ensureDirectoryExists (env : Env) (path : String) : Bool × List Action :=
  if path = "" then (false, [])
  else (env.mkdirAllOk path, [Action.mkdirAll path])

/-- `fileutils.FileExists`: `os.Stat(path)` returned no error. -/
def fileExists (env : Env) (path : String) : Bool × List Action :=
  (env.statOk path, [Action.statFile path])

/-! ## Downloader.downloadFile and downloadWorker -/

/-- Result of one worker loop iteration: counter mutations performed,
errors sent into `errChan`, and the ordered action trace. -/
structure StepOut where
  events : List CounterEvent
  errs : List GoError
  actions : List Action
deriving Repr, DecidableEq

/-- `Downloader.downloadFile` (downloader.go lines 349-394): ensure the
parent directory, create the local file, run `DownloadWithContext` under
the per-object timeout; on a transfer error close and remove the partial
file and map `context.Canceled` to `ErrDownloadCanceled`. -/
def downloadFile (env : Env) (bucket key localPath : String) :
    Option GoError × List Action :=
  let ed := ensureDirectoryExists env (filepathDir localPath)
  if ed.1 = false then (some (GoError.parentMkdirFailed key), ed.2)
  else if env.createOk localPath = false then
    (some (GoError.createFailed key), ed.2 ++ [Action.createFile localPath])
  else
    match env.download key with
    | SdkResult.ok =>
        (none, ed.2 ++ [Action.createFile localPath, Action.download bucket key])
    | SdkResult.canceled =>
        (some GoError.downloadCanceled,
         ed.2 ++ [Action.createFile localPath, Action.download bucket key,
                  Action.removeFile localPath])
    | SdkResult.failed =>
        (some (GoError.downloadFailed key),
         ed.2 ++ [Action.createFile localPath, Action.download bucket key,
                  Action.removeFile localPath])

/-- One iteration of the `downloadWorker` loop body for one object pulled
from `fileChan` (downloader.go lines 281-345), in the branch where
`ctx.Done()` has not fired: resolve the local path, ensure its directory,
either skip (existing file, `overwrite` false) or download, and mutate the
counters as the code does.  Progress publishes are non-blocking reads of
the counters and are not recorded. -/
def workerStep (env : Env) (bucket downloadPath : String) (overwrite : Bool)
    (file : S3Object) : StepOut :=
  let key := file.key
  let size := file.size
  let localFilePath := filepathJoin downloadPath key
  let localDir := filepathDir localFilePath
  let ed := ensureDirectoryExists env localDir
  if ed.1 = false then
    { events := [], errs := [GoError.mkdirFailed key], actions := ed.2 }
  else
    let fe := fileExists env localFilePath
    if fe.1 && !overwrite then
      { events := [CounterEvent.addSkipped 1, CounterEvent.addProcessed 1],
        errs := [], actions := ed.2 ++ fe.2 }
    else
      let df := downloadFile env bucket key localFilePath
      match df.1 with
      | some e =>
          { events := [], errs := [e], actions := ed.2 ++ fe.2 ++ df.2 }
      | none =>
          { events := [CounterEvent.addProcessed 1, CounterEvent.addBytes size],
            errs := [], actions := ed.2 ++ fe.2 ++ df.2 }

/-- Processing of the whole task queue by the worker pool.  Workers race
for queue items; each item is consumed by exactly one worker and every
counter mutation is an atomic add, so the multiset of events, errors and
actions is interleaving-independent.  The model fixes the queue order as
one admissible schedule. -/
def runWorkers (env : Env) (bucket downloadPath : String) (overwrite : Bool) :
    List S3Object → StepOut
  | [] => { events := [], errs := [], actions := [] }
  | obj :: rest =>
      let s := workerStep env bucket downloadPath overwrite obj
      let r := runWorkers env bucket downloadPath overwrite rest
      { events := s.events ++ r.events, errs := s.errs ++ r.errs,
        actions := s.actions ++ r.actions }

/-! ## The lister filter and the error channel -/

/-- The lister's skip condition (downloader.go line 165): an object is
dropped before enqueue when its size is 0 and `filepath.Base` of its key
is the empty string. -/
def listerSkipsObject (obj : S3Object) : Bool :=
  obj.size == 0 && filepathBase obj.key == ""

/-- The objects the lister actually enqueues into `fileChan`. -/
def enqueuedObjects (listing : List S3Object) : List S3Object :=
  listing.filter (fun obj => !listerSkipsObject obj)

/-- Non-blocking send into the bounded error channel (the
`select`/`default` at downloader.go lines 200-204): dropped when the
buffer is full. -/
def trySendErr (cap : Nat) (buf : List GoError) (e : GoError) : List GoError :=
  if buf.length < cap then buf ++ [e] else buf

/-! ## ListAndDownloadObjects -/

/-- The return value of `ListAndDownloadObjects`: `nil`,
`ErrDownloadCanceled`, the "encountered N errors" wrapper, or one of the
validation errors returned before any work is started. -/
inductive Outcome where
  /-- `nil` return. -/
  | success : Outcome
  /-- `ErrDownloadCanceled` from the `ctx.Done()` branch of the final select. -/
  | canceled : Outcome
  /-- "encountered `count` errors during download. First error: `first`". -/
  | failed (first : GoError) (count : Nat) : Outcome
  /-- "S3 bucket name cannot be empty". -/
  | emptyBucket : Outcome
  /-- "download path cannot be empty". -/
  | emptyPath : Outcome
  /-- "download path doesn't exist and couldn't be created". -/
  | badPath : Outcome
deriving Repr, DecidableEq

/-- Everything observable about a naturally completed (uncanceled)
invocation past input validation. -/
structure NaturalRunResult where
  /-- The error value the call returns. -/
  outcome : Outcome
  /-- The final `progress.Progress` built at lines 245-251. -/
  finalProgress : Progress
  /-- The counter set after all mutations, drain included. -/
  counters : Counters
  /-- The objects enqueued into `fileChan` by the lister. -/
  queued : List S3Object
  /-- Errors the workers sent into `errChan` (blocking sends). -/
  workerErrs : List GoError
  /-- Errors drained from `errChan` by the collection loop. -/
  errsCollected : List GoError
  /-- All counter mutations, in the modelled schedule. -/
  events : List CounterEvent
  /-- All filesystem/network actions of lister validation and workers. -/
  actions : List Action
deriving Repr, DecidableEq

/-- The uncanceled run of `ListAndDownloadObjects` after validation: the
lister filters and enqueues `listing`, incrementing `foundFiles` per
enqueue; workers drain the queue; the drain loop (lines 236-242) collects
`errChan` and increments `errorCount` once per collected error; the final
progress and the returned error are built from the result.

Error-channel contents: worker sends (lines 292 and 322) block until
buffer space is free, and the channel is drained only after all workers
have finished, so a naturally completing run has at most `maxWorkers`
worker errors and they all reach the channel; the lister's single send is
non-blocking and is dropped when the buffer is full.  The model orders the
lister's send after the worker errors, one admissible schedule. -/
def naturalRun (env : Env) (bucket downloadPath : String) (overwrite : Bool)
    (maxWorkers : Nat) (listing : List S3Object) (listingErr : Bool) :
    NaturalRunResult :=
  let queue := enqueuedObjects listing
  let listerEvents := queue.map (fun _ => CounterEvent.addFound 1)
  let w := runWorkers env bucket downloadPath overwrite queue
  let errChanContents :=
    if listingErr then trySendErr maxWorkers w.errs GoError.listingFailed
    else w.errs
  let drainEvents := errChanContents.map (fun _ => CounterEvent.addErrors 1)
  let events := listerEvents ++ w.events ++ drainEvents
  let c := applyEvents Counters.init events
  let finalProgress : Progress :=
    { filesFound := c.foundFiles,
      filesDownloaded := c.processedFiles - c.skippedFiles,
      filesSkipped := c.skippedFiles,
      totalBytes := c.totalBytes,
      errorCount := c.errorCount }
  let outcome :=
    match errChanContents with
    | [] => Outcome.success
    | e :: rest => Outcome.failed e (e :: rest).length
  { outcome := outcome, finalProgress := finalProgress, counters := c,
    queued := queue, workerErrs := w.errs, errsCollected := errChanContents,
    events := events, actions := w.actions }

/-- `ListAndDownloadObjects` (downloader.go lines 87-265): input
validation (lines 93-106), then either the cancellation return at line 232
(`ctx.Done()` won the final select, before the drain and the final
progress; the partial work done up to that point is not modelled) or the
natural completion `naturalRun`.  The second component is the action trace
of the validation itself; the third is the completed run when one exists. -/
def listAndDownloadObjects (env : Env) (bucket downloadPath : String)
    (overwrite : Bool) (maxWorkers : Nat) (listing : List S3Object)
    (listingErr : Bool) (ctxCanceled : Bool) :
    Outcome × List Action × Option NaturalRunResult :=
  if bucket = "" then (Outcome.emptyBucket, [], none)
  else if downloadPath = "" then (Outcome.emptyPath, [], none)
  else
    let fe := fileExists env downloadPath
    if fe.1 = false then
      let ed := ensureDirectoryExists env downloadPath
      if ed.1 = false then (Outcome.badPath, fe.2 ++ ed.2, none)
      else if ctxCanceled then (Outcome.canceled, fe.2 ++ ed.2, none)
      else
        let r := naturalRun env bucket downloadPath overwrite maxWorkers listing listingErr
        (r.outcome, fe.2 ++ ed.2 ++ r.actions, some r)
    else if ctxCanceled then (Outcome.canceled, fe.2, none)
    else
      let r := naturalRun env bucket downloadPath overwrite maxWorkers listing listingErr
      (r.outcome, fe.2 ++ r.actions, some r)

/-! ## Concrete scenario inputs -/

/-- The listing of the spec's concrete scenarios: three objects
`f1.txt:100`, `f2.txt:200`, `dir/f3.txt:50`. -/
def listing3 : List S3Object :=
  [⟨"f1.txt", 100⟩, ⟨"f2.txt", 200⟩, ⟨"dir/f3.txt", 50⟩]

/-- A world where `/dest` and `/dest/f1.txt` already exist, every
directory creation and file creation succeeds, and every transfer
succeeds. -/
def envSkipF1 : Env where
  statOk := fun p => p == "/dest" || p == "/dest/f1.txt"
  mkdirAllOk := fun _ => true
  createOk := fun _ => true
  download := fun _ => SdkResult.ok

/-- A world where nothing exists yet and every operation succeeds. -/
def envAllOk : Env where
  statOk := fun _ => false
  mkdirAllOk := fun _ => true
  createOk := fun _ => true
  download := fun _ => SdkResult.ok

/-- A world where every `os.MkdirAll` fails (and nothing exists), so
every object the workers pull produces an error. -/
def envMkdirFails : Env where
  statOk := fun _ => false
  mkdirAllOk := fun _ => false
  createOk := fun _ => true
  download := fun _ => SdkResult.ok

/-! ## Path assembly used to state path-fidelity properties -/

/-- `strings.Join(comps, "/")`. -/
def joinComps : List String → String
  | [] => ""
  | [c] => c
  | c :: rest => c ++ "/" ++ joinComps rest

/-- A rooted (absolute) path with the given components. -/
def rootedPath (comps : List String) : String := "/" ++ joinComps comps

/-- A path component that `filepath.Clean` keeps verbatim: nonempty, not
"." or "..", and free of separators. -/
def goodComp (s : String) : Prop :=
  ¬ s = "" ∧ ¬ s = "." ∧ ¬ s = ".." ∧ '/' ∉ s.data

instance (s : String) : Decidable (goodComp s) := by
  unfold goodComp
  infer_instance

/-- The character-level counterpart of `goodComp` without the separator
condition. -/
def plainCompL (cs : List Char) : Prop :=
  ¬ cs = [] ∧ ¬ cs = ['.'] ∧ ¬ cs = ['.', '.']

instance (cs : List Char) : Decidable (plainCompL cs) := by
  unfold plainCompL
  infer_instance

/-- Modelled from the documentation of `os.MkdirAll` (the call inside
`fileutils.EnsureDirectoryExists`): it creates the directory named by its
argument "along with any necessary parents", so after a successful call
every component prefix of the path exists as a directory. -/
def mkdirAllCreates (path : String) : List String :=
  let comps := (splitSlashL path.data).filter (fun c => !c.isEmpty)
  (List.range comps.length).map
    (fun i => ⟨(if path.data.head? = some '/' then ['/'] else []) ++
      charJoin (comps.take (i + 1))⟩)

/-- A world where `/dest` exists and every transfer fails. -/
def envDownloadFails : Env where
  statOk := fun p => p == "/dest"
  mkdirAllOk := fun _ => true
  createOk := fun _ => true
  download := fun _ => SdkResult.failed

/-! # Theorems -/

/-! ## Sanity checks for the path embedding -/

example : filepathBase "dir/" = "dir" := by decide
example : filepathBase "" = "." := by decide
example : filepathBase "/" = "/" := by decide
example : filepathBase "a/b.txt" = "b.txt" := by decide
example : filepathClean "/dest/a/b/c.txt" = "/dest/a/b/c.txt" := by decide
example : filepathClean "a/../b//c/" = "b/c" := by decide
example : filepathClean "/../a" = "/a" := by decide
example : filepathJoin "/dest" "a/b/c.txt" = "/dest/a/b/c.txt" := by decide
example : filepathJoin "/dest" "f1.txt" = "/dest/f1.txt" := by decide
example : filepathDir "/dest/a/b/c.txt" = "/dest/a/b" := by decide
example : filepathDir "f.txt" = "." := by decide

/-! ## Helper lemmas -/

/-- `filepath.Clean` never returns the empty path. -/
theorem cleanL_ne_nil (cs : List Char) : cleanL cs ≠ [] := by
  unfold cleanL
  split
  · simp
  · dsimp only
    split <;> (split <;> simp_all)

/-- `filepath.Dir` never returns the empty string, so
`EnsureDirectoryExists` applied to it always reaches `os.MkdirAll`. -/
theorem filepathDir_ne_empty (s : String) : filepathDir s ≠ "" := by
  intro h
  have hd : (filepathDir s).data = "".data := congrArg String.data h
  simp only [filepathDir, dirL] at hd
  exact cleanL_ne_nil _ hd

/-- Dropping while a predicate holds skips a whole block that satisfies
it. -/
theorem dropWhile_append_all {α : Type} (p : α → Bool) (l₁ l₂ : List α)
    (h : ∀ a ∈ l₁, p a = true) :
    (l₁ ++ l₂).dropWhile p = l₂.dropWhile p := by
  induction l₁ with
  | nil => rfl
  | cons a l ih =>
      rw [List.cons_append,
        List.dropWhile_cons_of_pos (h a (List.mem_cons_self _ _))]
      exact ih (fun b hb => h b (List.mem_cons_of_mem _ hb))

/-- A separator-free string is one single split group. -/
theorem splitSlashL_no_slash (xs : List Char) (h : '/' ∉ xs) :
    splitSlashL xs = [xs] := by
  induction xs with
  | nil => rfl
  | cons c rest ih =>
      have hc : ¬ c = '/' := by
        intro e
        subst e
        exact h (List.mem_cons_self _ _)
      have hr : '/' ∉ rest := fun hm => h (List.mem_cons_of_mem _ hm)
      simp [splitSlashL, hc, ih hr]

/-- Splitting at the first separator after a separator-free block. -/
theorem splitSlashL_append_slash (xs ys : List Char) (h : '/' ∉ xs) :
    splitSlashL (xs ++ '/' :: ys) = xs :: splitSlashL ys := by
  induction xs with
  | nil => simp [splitSlashL]
  | cons c rest ih =>
      have hc : ¬ c = '/' := by
        intro e
        subst e
        exact h (List.mem_cons_self _ _)
      have hr : '/' ∉ rest := fun hm => h (List.mem_cons_of_mem _ hm)
      simp [splitSlashL, hc, ih hr]

/-- Joining two nonempty component lists inserts one separator. -/
theorem charJoin_append (css dss : List (List Char)) (h1 : css ≠ [])
    (h2 : dss ≠ []) :
    charJoin (css ++ dss) = charJoin css ++ '/' :: charJoin dss := by
  induction css with
  | nil => exact absurd rfl h1
  | cons c rest ih =>
      cases rest with
      | nil =>
          cases dss with
          | nil => exact absurd rfl h2
          | cons d ds => simp [charJoin]
      | cons c₂ rest₂ =>
          have := ih (by simp)
          simp only [List.cons_append] at this ⊢
          rw [show charJoin (c :: c₂ :: (rest₂ ++ dss)) =
              c ++ '/' :: charJoin (c₂ :: (rest₂ ++ dss)) from rfl, this]
          simp [charJoin]

/-- Splitting undoes joining for separator-free components. -/
theorem splitSlashL_charJoin (css : List (List Char)) (h1 : css ≠ [])
    (h2 : ∀ cs ∈ css, '/' ∉ cs) :
    splitSlashL (charJoin css) = css := by
  induction css with
  | nil => exact absurd rfl h1
  | cons c rest ih =>
      cases rest with
      | nil =>
          simpa [charJoin] using
            splitSlashL_no_slash c (h2 c (List.mem_cons_self _ _))
      | cons c₂ rest₂ =>
          rw [show charJoin (c :: c₂ :: rest₂) =
              c ++ '/' :: charJoin (c₂ :: rest₂) from rfl,
            splitSlashL_append_slash c _ (h2 c (List.mem_cons_self _ _)),
            ih (by simp) (fun cs hcs => h2 cs (List.mem_cons_of_mem _ hcs))]

/-- Over components that are empty or plain, `Clean`'s component fold
keeps exactly the nonempty ones, in reverse, in front of the
accumulator. -/
theorem foldl_cleanStepL (r : Bool) (comps : List (List Char))
    (h : ∀ cs ∈ comps, cs = [] ∨ plainCompL cs) (acc : List (List Char)) :
    comps.foldl (cleanStepL r) acc =
      (comps.filter (fun c => !c.isEmpty)).reverse ++ acc := by
  induction comps generalizing acc with
  | nil => simp
  | cons e comps ih =>
      have hrest : ∀ cs ∈ comps, cs = [] ∨ plainCompL cs :=
        fun cs hcs => h cs (List.mem_cons_of_mem _ hcs)
      rcases h e (List.mem_cons_self _ _) with he | he
      · subst he
        rw [List.foldl_cons, show cleanStepL r acc [] = acc from rfl,
          ih hrest acc]
        simp
      · have hne : e.isEmpty = false := by
          cases e with
          | nil => exact absurd rfl he.1
          | cons a l => rfl
        have hstep : cleanStepL r acc e = e :: acc := by
          unfold cleanStepL
          rw [if_neg (by rintro (h1 | h1) <;> [exact he.1 h1; exact he.2.1 h1]),
            if_neg he.2.2]
        rw [List.foldl_cons, hstep, ih hrest (e :: acc)]
        simp [List.filter_cons, hne]

/-- A list of nonempty character lists is unchanged by the nonempty
filter. -/
theorem filter_nonempty_eq_self (css : List (List Char))
    (h : ∀ cs ∈ css, ¬ cs = []) :
    css.filter (fun c => !c.isEmpty) = css := by
  induction css with
  | nil => rfl
  | cons c rest ih =>
      have hc : c.isEmpty = false := by
        cases c with
        | nil => exact absurd rfl (h _ (List.mem_cons_self _ _))
        | cons a l => rfl
      simp [List.filter_cons, hc,
        ih (fun cs hcs => h cs (List.mem_cons_of_mem _ hcs))]

/-- Unfolding `Clean` on a rooted path. -/
theorem cleanL_cons_slash (z : List Char) :
    cleanL ('/' :: z) =
      (if ['/'] ++ charJoin
          (((splitSlashL ('/' :: z)).foldl (cleanStepL true) []).reverse) = []
       then ['.']
       else ['/'] ++ charJoin
          (((splitSlashL ('/' :: z)).foldl (cleanStepL true) []).reverse)) :=
  rfl

/-- `Clean` of a rooted join of empty-or-plain separator-free components
keeps exactly the nonempty components. -/
theorem cleanL_rooted_charJoin (css : List (List Char)) (h1 : css ≠ [])
    (h2 : ∀ cs ∈ css, '/' ∉ cs)
    (h3 : ∀ cs ∈ css, cs = [] ∨ plainCompL cs) :
    cleanL ('/' :: charJoin css) =
      '/' :: charJoin (css.filter (fun c => !c.isEmpty)) := by
  rw [cleanL_cons_slash,
    show splitSlashL ('/' :: charJoin css) =
      [] :: splitSlashL (charJoin css) from by simp [splitSlashL],
    splitSlashL_charJoin css h1 h2,
    show ([] :: css).foldl (cleanStepL true) [] =
      css.foldl (cleanStepL true) [] from rfl,
    foldl_cleanStepL true css h3 [], List.append_nil,
    List.reverse_reverse, if_neg (by simp)]
  rfl

/-- Everything up to and including the last separator, when the tail is
separator-free. -/
theorem upToLastSlash_append (as bs : List Char) (h : '/' ∉ bs) :
    upToLastSlash (as ++ '/' :: bs) = as ++ ['/'] := by
  unfold upToLastSlash
  rw [List.reverse_append, List.reverse_cons, List.append_assoc,
    List.singleton_append,
    dropWhile_append_all _ bs.reverse _ (by
      intro a ha
      have : a ∈ bs := List.mem_reverse.mp ha
      simp only [decide_eq_true_eq]
      intro e
      subst e
      exact h this),
    List.dropWhile_cons_of_neg (by simp)]
  simp

/-- `Dir` of a rooted path drops the last component and cleans the
rest. -/
theorem dirL_rooted (zs : List (List Char)) (last : List Char)
    (hne : zs ≠ []) (hz : ∀ cs ∈ zs, '/' ∉ cs)
    (hp : ∀ cs ∈ zs, cs = [] ∨ plainCompL cs) (hl : '/' ∉ last) :
    dirL ('/' :: charJoin (zs ++ [last])) =
      '/' :: charJoin (zs.filter (fun c => !c.isEmpty)) := by
  unfold dirL
  rw [charJoin_append zs [last] hne (by simp),
    show charJoin [last] = last from rfl,
    show ('/' :: (charJoin zs ++ '/' :: last)) =
      (('/' :: charJoin zs) ++ '/' :: last) from by simp,
    upToLastSlash_append _ _ hl,
    show ('/' :: charJoin zs) ++ ['/'] = '/' :: charJoin (zs ++ [[]]) from by
      rw [charJoin_append zs [[]] hne (by simp)]
      simp [charJoin],
    cleanL_rooted_charJoin (zs ++ [[]]) (by simp)
      (by
        intro cs hcs
        rcases List.mem_append.mp hcs with hm | hm
        · exact hz cs hm
        · simp at hm
          subst hm
          simp)
      (by
        intro cs hcs
        rcases List.mem_append.mp hcs with hm | hm
        · exact hp cs hm
        · simp at hm
          subst hm
          exact Or.inl rfl)]
  simp [List.filter_append]

/-- `strings.Join` at the character level. -/
theorem joinComps_data (comps : List String) :
    (joinComps comps).data = charJoin (comps.map String.data) := by
  induction comps with
  | nil => rfl
  | cons c rest ih =>
      cases rest with
      | nil => rfl
      | cons c₂ rest₂ =>
          show (c ++ "/" ++ joinComps (c₂ :: rest₂)).data = _
          rw [String.data_append, String.data_append, ih,
            show ("/" : String).data = ['/'] from rfl]
          simp [charJoin]

/-- A rooted path at the character level. -/
theorem rootedPath_data (comps : List String) :
    (rootedPath comps).data = '/' :: charJoin (comps.map String.data) := by
  show ("/" ++ joinComps comps).data = _
  rw [String.data_append, joinComps_data,
    show ("/" : String).data = ['/'] from rfl]
  rfl

/-- A rooted path is never the empty string. -/
theorem rootedPath_ne_empty (comps : List String) : rootedPath comps ≠ "" := by
  intro h
  have hd := congrArg String.data h
  rw [rootedPath_data] at hd
  exact List.cons_ne_nil _ _ (hd.trans (by decide))

/-- A good component is nonempty, not a dot component, and
separator-free, at the character level. -/
theorem goodComp_data {s : String} (h : goodComp s) :
    '/' ∉ s.data ∧ plainCompL s.data := by
  refine ⟨h.2.2.2, ?_, ?_, ?_⟩
  · intro e
    exact h.1 (String.ext (e.trans (by decide)))
  · intro e
    exact h.2.1 (String.ext (e.trans (by decide)))
  · intro e
    exact h.2.2.1 (String.ext (e.trans (by decide)))

/-- Good components have separator-free character lists. -/
theorem map_data_no_slash {comps : List String}
    (h : ∀ s ∈ comps, goodComp s) :
    ∀ cs ∈ comps.map String.data, '/' ∉ cs := by
  intro cs hcs
  rcases List.mem_map.mp hcs with ⟨s, hs, rfl⟩
  exact (h s hs).2.2.2

/-- Good components are plain at the character level. -/
theorem map_data_plain {comps : List String}
    (h : ∀ s ∈ comps, goodComp s) :
    ∀ cs ∈ comps.map String.data, cs = [] ∨ plainCompL cs := by
  intro cs hcs
  rcases List.mem_map.mp hcs with ⟨s, hs, rfl⟩
  exact Or.inr (goodComp_data (h s hs)).2

/-- Good components are nonempty at the character level. -/
theorem map_data_nonempty {comps : List String}
    (h : ∀ s ∈ comps, goodComp s) :
    ∀ cs ∈ comps.map String.data, ¬ cs = [] := by
  intro cs hcs
  rcases List.mem_map.mp hcs with ⟨s, hs, rfl⟩
  exact (goodComp_data (h s hs)).2.1

/-- Appending a relative component path to a rooted path with an explicit
separator yields the rooted path of the concatenated components. -/
theorem rootedPath_append (dcomps kcomps : List String)
    (hd : dcomps ≠ []) (hk : kcomps ≠ []) :
    rootedPath dcomps ++ "/" ++ joinComps kcomps =
      rootedPath (dcomps ++ kcomps) := by
  apply String.ext
  rw [String.data_append, String.data_append, rootedPath_data,
    rootedPath_data, joinComps_data, List.map_append,
    show ("/" : String).data = ['/'] from rfl,
    charJoin_append (dcomps.map String.data) (kcomps.map String.data)
      (by simpa using hd) (by simpa using hk)]
  simp

/-- `filepath.Join` of a rooted destination with a clean relative key is
plain concatenation: `Clean` changes nothing. -/
theorem filepathJoin_rooted (dcomps kcomps : List String)
    (hd : dcomps ≠ []) (hk : kcomps ≠ [])
    (hgd : ∀ s ∈ dcomps, goodComp s) (hgk : ∀ s ∈ kcomps, goodComp s) :
    filepathJoin (rootedPath dcomps) (joinComps kcomps) =
      rootedPath (dcomps ++ kcomps) := by
  have hall : ∀ s ∈ dcomps ++ kcomps, goodComp s := by
    intro s hs
    rcases List.mem_append.mp hs with hm | hm
    · exact hgd s hm
    · exact hgk s hm
  apply String.ext
  show joinL (rootedPath dcomps).data (joinComps kcomps).data = _
  rw [rootedPath_data, joinComps_data]
  unfold joinL
  rw [if_neg (by simp)]
  rw [show ('/' :: charJoin (dcomps.map String.data)) ++
      '/' :: charJoin (kcomps.map String.data) =
      '/' :: charJoin ((dcomps ++ kcomps).map String.data) from by
    rw [List.map_append,
      charJoin_append _ _ (by simpa using hd) (by simpa using hk)]
    simp]
  rw [cleanL_rooted_charJoin _ (by simp [hd]) (map_data_no_slash hall)
    (map_data_plain hall),
    filter_nonempty_eq_self _ (map_data_nonempty hall), rootedPath_data]

/-- `filepath.Dir` of a rooted clean path drops its last component. -/
theorem filepathDir_rootedPath (zcomps : List String) (kfile : String)
    (hz : zcomps ≠ []) (hgz : ∀ s ∈ zcomps, goodComp s)
    (hgf : goodComp kfile) :
    filepathDir (rootedPath (zcomps ++ [kfile])) = rootedPath zcomps := by
  apply String.ext
  show dirL (rootedPath (zcomps ++ [kfile])).data = _
  rw [rootedPath_data, List.map_append,
    show (([kfile] : List String).map String.data) = [kfile.data] from rfl,
    dirL_rooted (zcomps.map String.data) kfile.data (by simpa using hz)
      (map_data_no_slash hgz) (map_data_plain hgz) (goodComp_data hgf).1,
    filter_nonempty_eq_self _ (map_data_nonempty hgz), rootedPath_data]

/-- Every component prefix that extends the destination root by an
initial segment of the key's directory components is among the
directories `os.MkdirAll` creates for the resolved parent directory. -/
theorem rootedPath_mem_mkdirAllCreates (dcomps kdirs : List String)
    (j : Nat) (hd : dcomps ≠ []) (hgd : ∀ s ∈ dcomps, goodComp s)
    (hgk : ∀ s ∈ kdirs, goodComp s) (h1 : 1 ≤ j) (h2 : j ≤ kdirs.length) :
    rootedPath (dcomps ++ kdirs.take j) ∈
      mkdirAllCreates (rootedPath (dcomps ++ kdirs)) := by
  have hall : ∀ s ∈ dcomps ++ kdirs, goodComp s := by
    intro s hs
    rcases List.mem_append.mp hs with hm | hm
    · exact hgd s hm
    · exact hgk s hm
  have hsplit : splitSlashL (rootedPath (dcomps ++ kdirs)).data =
      [] :: (dcomps ++ kdirs).map String.data := by
    rw [rootedPath_data,
      show splitSlashL ('/' :: charJoin ((dcomps ++ kdirs).map String.data)) =
        [] :: splitSlashL (charJoin ((dcomps ++ kdirs).map String.data)) from
        by simp [splitSlashL],
      splitSlashL_charJoin _ (by simp [hd]) (map_data_no_slash hall)]
  have hfil : (splitSlashL (rootedPath (dcomps ++ kdirs)).data).filter
      (fun c => !c.isEmpty) = (dcomps ++ kdirs).map String.data := by
    rw [hsplit,
      show (([] : List Char) :: (dcomps ++ kdirs).map String.data).filter
        (fun c => !c.isEmpty) =
        ((dcomps ++ kdirs).map String.data).filter (fun c => !c.isEmpty) from
        by simp]
    exact filter_nonempty_eq_self _ (map_data_nonempty hall)
  have hhead : (rootedPath (dcomps ++ kdirs)).data.head? = some '/' := by
    rw [rootedPath_data]
    rfl
  unfold mkdirAllCreates
  rw [hfil, hhead, if_pos rfl]
  apply List.mem_map.mpr
  refine ⟨dcomps.length + (j - 1), List.mem_range.mpr ?_, ?_⟩
  · simp only [List.length_map, List.length_append]
    omega
  · have hidx : dcomps.length + (j - 1) + 1 =
        (dcomps.map String.data).length + j := by
      simp only [List.length_map]
      omega
    rw [hidx, List.map_append, List.take_append, ← List.map_take,
      ← List.map_append]
    apply String.ext
    rw [rootedPath_data]
    rfl

/-- The returned error of a natural run is determined by the collected
errors exactly as lines 260-264 compute it. -/
theorem naturalRun_outcome_def (env : Env) (bucket downloadPath : String)
    (overwrite : Bool) (maxWorkers : Nat) (listing : List S3Object)
    (listingErr : Bool) :
    (naturalRun env bucket downloadPath overwrite maxWorkers listing
        listingErr).outcome =
      match (naturalRun env bucket downloadPath overwrite maxWorkers listing
          listingErr).errsCollected with
      | [] => Outcome.success
      | e :: rest => Outcome.failed e (e :: rest).length := rfl

/-! ## Claim C5 -/

/-- C5: the claimed filtering of zero-byte directory-marker objects never
happens.  `filepath.Base` strips trailing separators before extracting the
last element and never returns the empty string, so the skip condition at
downloader.go line 165 (`size == 0 && filepath.Base(key) == ""`) is false
even for a zero-byte object with the trailing-slash key "dir/": the object
is enqueued, the found counter is incremented, and a download for it is
attempted — contradicting the comment above the condition ("Skip
directories (objects with trailing slash and 0 size)"). -/
theorem C5_directory_marker_is_enqueued :
    filepathBase "dir/" = "dir" ∧
    listerSkipsObject ⟨"dir/", 0⟩ = false ∧
    enqueuedObjects [⟨"dir/", 0⟩] = [⟨"dir/", 0⟩] ∧
    (naturalRun envAllOk "b" "/dest" false 1 [⟨"dir/", 0⟩]
        false).counters.foundFiles = 1 ∧
    Action.download "b" "dir/" ∈
      (naturalRun envAllOk "b" "/dest" false 1 [⟨"dir/", 0⟩] false).actions := by
  decide

/-! ## Claim C7 -/

/-- C7 fails on the code: in the scenario (listing `f1.txt:100`,
`f2.txt:200`, `dir/f3.txt:50`; `f1.txt` pre-existing; `overwrite` false;
both remaining transfers succeed) the final snapshot's `FilesDownloaded`
is `processedFiles - skippedFiles = 3 - 1 = 2`, not the claimed 3. -/
theorem C7_counterexample :
    ¬ ((naturalRun envSkipF1 "b" "/dest" false 2 listing3
          false).finalProgress = ⟨3, 3, 1, 250, 0⟩) := by
  decide

/-- C7 amended: in that scenario the final snapshot is
`{filesFound := 3, filesDownloaded := 2, filesSkipped := 1,
totalBytes := 250, errorCount := 0}` and the call returns nil. -/
theorem C7_scenario_final_snapshot :
    (listAndDownloadObjects envSkipF1 "b" "/dest" false 2 listing3 false
        false).1 = Outcome.success ∧
    (naturalRun envSkipF1 "b" "/dest" false 2 listing3
        false).finalProgress = ⟨3, 2, 1, 250, 0⟩ := by
  decide

/-! ## Claim C2 -/

/-- C2: when the cancellation context fires before natural completion,
`ListAndDownloadObjects` returns `ErrDownloadCanceled` (the `ctx.Done()`
branch of the select at lines 227-233), never the `Failed` wrapper — for
every environment, in particular ones whose workers or lister have
already queued errors.  Hypotheses: the bucket and path pass validation
(nonempty, and the download path exists or can be created). -/
theorem C2_cancellation_returns_canceled (env : Env)
    (bucket downloadPath : String) (overwrite : Bool) (maxWorkers : Nat)
    (listing : List S3Object) (listingErr : Bool)
    (hb : bucket ≠ "") (hp : downloadPath ≠ "")
    (hv : env.statOk downloadPath = true ∨ env.mkdirAllOk downloadPath = true) :
    (listAndDownloadObjects env bucket downloadPath overwrite maxWorkers
        listing listingErr true).1 = Outcome.canceled := by
  unfold listAndDownloadObjects fileExists ensureDirectoryExists
  cases hstat : env.statOk downloadPath with
  | false =>
      rcases hv with hv | hv
      · exact absurd hv (by simp [hstat])
      · simp [hb, hp, hstat, hv]
  | true => simp [hb, hp, hstat]

/-- Closed instance of C2: a canceled invocation in a world where every
transfer fails (so errors would be queued) still reports `canceled`. -/
theorem C2_cancellation_returns_canceled_witness :
    ("b" : String) ≠ "" ∧ ("/dest" : String) ≠ "" ∧
    (envDownloadFails.statOk "/dest" = true ∨
      envDownloadFails.mkdirAllOk "/dest" = true) ∧
    (listAndDownloadObjects envDownloadFails "b" "/dest" false 2 listing3
        true true).1 = Outcome.canceled :=
  ⟨by decide, by decide, Or.inl (by decide),
   C2_cancellation_returns_canceled envDownloadFails "b" "/dest" false 2
     listing3 true (by decide) (by decide) (Or.inl (by decide))⟩

/-! ## Claim C3 -/

/-- C3: a naturally completing invocation (validation passed, cancellation
never fired) builds its terminal outcome once, from the drained error
collection: the call returns the natural run's outcome, which is `nil`
(success) iff no errors were collected, and otherwise the `Failed` wrapper
carrying the first collected error and the count of collected errors. -/
theorem C3_natural_completion_outcome (env : Env)
    (bucket downloadPath : String) (overwrite : Bool) (maxWorkers : Nat)
    (listing : List S3Object) (listingErr : Bool)
    (hb : bucket ≠ "") (hp : downloadPath ≠ "")
    (hv : env.statOk downloadPath = true ∨ env.mkdirAllOk downloadPath = true) :
    (listAndDownloadObjects env bucket downloadPath overwrite maxWorkers
        listing listingErr false).1 =
      (naturalRun env bucket downloadPath overwrite maxWorkers listing
        listingErr).outcome ∧
    ((naturalRun env bucket downloadPath overwrite maxWorkers listing
        listingErr).outcome = Outcome.success ↔
      (naturalRun env bucket downloadPath overwrite maxWorkers listing
        listingErr).errsCollected = []) ∧
    (∀ e rest,
      (naturalRun env bucket downloadPath overwrite maxWorkers listing
        listingErr).errsCollected = e :: rest →
      (naturalRun env bucket downloadPath overwrite maxWorkers listing
        listingErr).outcome = Outcome.failed e (e :: rest).length) := by
  refine ⟨?_, ?_, ?_⟩
  · unfold listAndDownloadObjects fileExists ensureDirectoryExists
    cases hstat : env.statOk downloadPath with
    | false =>
        rcases hv with hv | hv
        · exact absurd hv (by simp [hstat])
        · simp [hb, hp, hstat, hv]
    | true => simp [hb, hp, hstat]
  · rw [naturalRun_outcome_def]
    cases h : (naturalRun env bucket downloadPath overwrite maxWorkers
        listing listingErr).errsCollected <;> simp
  · intro e rest h
    rw [naturalRun_outcome_def, h]

/-- Closed instance of C3: a run with one failing object returns the
`Failed` wrapper with that first error and count 1. -/
theorem C3_natural_completion_outcome_witness :
    ("b" : String) ≠ "" ∧ ("/dest" : String) ≠ "" ∧
    (envDownloadFails.statOk "/dest" = true ∨
      envDownloadFails.mkdirAllOk "/dest" = true) ∧
    ((listAndDownloadObjects envDownloadFails "b" "/dest" false 2
        [⟨"f.txt", 7⟩] false false).1 =
      (naturalRun envDownloadFails "b" "/dest" false 2 [⟨"f.txt", 7⟩]
        false).outcome ∧
    ((naturalRun envDownloadFails "b" "/dest" false 2 [⟨"f.txt", 7⟩]
        false).outcome = Outcome.success ↔
      (naturalRun envDownloadFails "b" "/dest" false 2 [⟨"f.txt", 7⟩]
        false).errsCollected = []) ∧
    (∀ e rest,
      (naturalRun envDownloadFails "b" "/dest" false 2 [⟨"f.txt", 7⟩]
        false).errsCollected = e :: rest →
      (naturalRun envDownloadFails "b" "/dest" false 2 [⟨"f.txt", 7⟩]
        false).outcome = Outcome.failed e (e :: rest).length)) :=
  ⟨by decide, by decide, Or.inl (by decide),
   C3_natural_completion_outcome envDownloadFails "b" "/dest" false 2
     [⟨"f.txt", 7⟩] false (by decide) (by decide) (Or.inl (by decide))⟩

/-! ## Claim C10 -/

/-- C10: input validation (lines 93-106) runs before any work.  An empty
bucket or an empty download path is rejected with no actions performed and
no run started (no counters, channels, workers or lister — the model's
`NaturalRunResult` is absent and the action trace is empty); a
non-existent download path triggers one creation attempt, and if that
fails the call returns with only the probe and the failed `MkdirAll` in
its trace and no run started. -/
theorem C10_validation_before_work (env : Env) (bucket downloadPath : String)
    (overwrite : Bool) (maxWorkers : Nat) (listing : List S3Object)
    (listingErr ctxCanceled : Bool) :
    (bucket = "" →
      listAndDownloadObjects env bucket downloadPath overwrite maxWorkers
        listing listingErr ctxCanceled = (Outcome.emptyBucket, [], none)) ∧
    (bucket ≠ "" → downloadPath = "" →
      listAndDownloadObjects env bucket downloadPath overwrite maxWorkers
        listing listingErr ctxCanceled = (Outcome.emptyPath, [], none)) ∧
    (bucket ≠ "" → downloadPath ≠ "" → env.statOk downloadPath = false →
      env.mkdirAllOk downloadPath = false →
      listAndDownloadObjects env bucket downloadPath overwrite maxWorkers
        listing listingErr ctxCanceled =
        (Outcome.badPath,
         [Action.statFile downloadPath, Action.mkdirAll downloadPath],
         none)) := by
  refine ⟨?_, ?_, ?_⟩
  · intro hb
    simp [listAndDownloadObjects, hb]
  · intro hb hp
    simp [listAndDownloadObjects, hb, hp]
  · intro hb hp hstat hmk
    simp [listAndDownloadObjects, fileExists, ensureDirectoryExists,
      hb, hp, hstat, hmk]

/-- Closed instances of C10: all three rejection paths at concrete
inputs. -/
theorem C10_validation_before_work_witness :
    (listAndDownloadObjects envAllOk "" "/dest" false 2 listing3 false
        false = (Outcome.emptyBucket, [], none)) ∧
    (listAndDownloadObjects envAllOk "b" "" false 2 listing3 false
        false = (Outcome.emptyPath, [], none)) ∧
    (listAndDownloadObjects envMkdirFails "b" "/dest" false 2 listing3 false
        false =
      (Outcome.badPath, [Action.statFile "/dest", Action.mkdirAll "/dest"],
       none)) :=
  ⟨(C10_validation_before_work envAllOk "" "/dest" false 2 listing3 false
      false).1 rfl,
   (C10_validation_before_work envAllOk "b" "" false 2 listing3 false
      false).2.1 (by decide) rfl,
   (C10_validation_before_work envMkdirFails "b" "/dest" false 2 listing3
      false false).2.2 (by decide) (by decide) (by decide) (by decide)⟩

/-! ## Claim C1 -/

/-- C1: when a file already exists at the resolved local path and
`overwrite` is false, the worker's whole handling of the object is two
atomic increments (`skippedFiles` then `processedFiles`, lines 298-299)
and the directory/stat probes: no error is sent and no download (and no
file creation) is performed, and the net successful-transfer count
`processedFiles - skippedFiles` is unchanged.  The hypothesis that
`MkdirAll` of the parent succeeds is forced by the main hypothesis on a
real filesystem: a file exists at the resolved path only when its parent
directory exists, and `os.MkdirAll` of an existing directory returns nil. -/
theorem C1_existing_file_skipped (env : Env) (bucket downloadPath : String)
    (file : S3Object)
    (hmk : env.mkdirAllOk (filepathDir (filepathJoin downloadPath file.key))
      = true)
    (hex : env.statOk (filepathJoin downloadPath file.key) = true) :
    workerStep env bucket downloadPath false file =
      { events := [CounterEvent.addSkipped 1, CounterEvent.addProcessed 1],
        errs := [],
        actions :=
          [Action.mkdirAll (filepathDir (filepathJoin downloadPath file.key)),
           Action.statFile (filepathJoin downloadPath file.key)] } ∧
    (∀ b k, Action.download b k ∉
      (workerStep env bucket downloadPath false file).actions) ∧
    (∀ c : Counters,
      applyEvents c (workerStep env bucket downloadPath false file).events =
        { c with skippedFiles := c.skippedFiles + 1,
                 processedFiles := c.processedFiles + 1 } ∧
      (applyEvents c (workerStep env bucket downloadPath false file).events).processedFiles -
        (applyEvents c (workerStep env bucket downloadPath false file).events).skippedFiles =
        c.processedFiles - c.skippedFiles) := by
  have hstep : workerStep env bucket downloadPath false file =
      { events := [CounterEvent.addSkipped 1, CounterEvent.addProcessed 1],
        errs := [],
        actions :=
          [Action.mkdirAll (filepathDir (filepathJoin downloadPath file.key)),
           Action.statFile (filepathJoin downloadPath file.key)] } := by
    simp [workerStep, ensureDirectoryExists, fileExists,
      filepathDir_ne_empty, hmk, hex]
  refine ⟨hstep, ?_, ?_⟩
  · intro b k
    rw [hstep]
    simp
  · intro c
    rw [hstep]
    constructor
    · rfl
    · show c.processedFiles + 1 - (c.skippedFiles + 1) =
        c.processedFiles - c.skippedFiles
      omega

/-- Closed instance of C1: `f1.txt` pre-exists under `/dest`, so the
worker skips it with the two increments and no download. -/
theorem C1_existing_file_skipped_witness :
    envSkipF1.mkdirAllOk
        (filepathDir (filepathJoin "/dest" (S3Object.key ⟨"f1.txt", 100⟩)))
      = true ∧
    envSkipF1.statOk (filepathJoin "/dest" (S3Object.key ⟨"f1.txt", 100⟩))
      = true ∧
    workerStep envSkipF1 "b" "/dest" false ⟨"f1.txt", 100⟩ =
      { events := [CounterEvent.addSkipped 1, CounterEvent.addProcessed 1],
        errs := [],
        actions :=
          [Action.mkdirAll
            (filepathDir (filepathJoin "/dest" (S3Object.key ⟨"f1.txt", 100⟩))),
           Action.statFile
            (filepathJoin "/dest" (S3Object.key ⟨"f1.txt", 100⟩))] } :=
  ⟨by decide, by decide,
   (C1_existing_file_skipped envSkipF1 "b" "/dest" ⟨"f1.txt", 100⟩
     (by decide) (by decide)).1⟩

/-! ## Claim C4 -/

/-- C4: when the transfer of an object fails (SDK failure or cancellation
of the per-object context), the worker's trace for the object ends with
`os.Remove` of the partial file right after the single download attempt,
exactly the corresponding error is sent to the collector, no counter is
mutated, and processing continues with the rest of the queue unchanged.
Hypotheses put the object on the transfer path: directory creation and
file creation succeed, the skip condition is false, and the SDK call does
not succeed. -/
theorem C4_transfer_failure_cleanup (env : Env) (bucket downloadPath : String)
    (overwrite : Bool) (file : S3Object) (rest : List S3Object)
    (hmk : env.mkdirAllOk (filepathDir (filepathJoin downloadPath file.key))
      = true)
    (hsk : (env.statOk (filepathJoin downloadPath file.key) && !overwrite)
      = false)
    (hcr : env.createOk (filepathJoin downloadPath file.key) = true)
    (hdl : env.download file.key ≠ SdkResult.ok) :
    workerStep env bucket downloadPath overwrite file =
      { events := [],
        errs := [match env.download file.key with
                 | SdkResult.canceled => GoError.downloadCanceled
                 | _ => GoError.downloadFailed file.key],
        actions :=
          [Action.mkdirAll (filepathDir (filepathJoin downloadPath file.key)),
           Action.statFile (filepathJoin downloadPath file.key),
           Action.mkdirAll (filepathDir (filepathJoin downloadPath file.key)),
           Action.createFile (filepathJoin downloadPath file.key),
           Action.download bucket file.key,
           Action.removeFile (filepathJoin downloadPath file.key)] } ∧
    ((workerStep env bucket downloadPath overwrite file).actions.count
        (Action.download bucket file.key) = 1) ∧
    runWorkers env bucket downloadPath overwrite (file :: rest) =
      { events := (runWorkers env bucket downloadPath overwrite rest).events,
        errs := (match env.download file.key with
                 | SdkResult.canceled => GoError.downloadCanceled
                 | _ => GoError.downloadFailed file.key) ::
          (runWorkers env bucket downloadPath overwrite rest).errs,
        actions :=
          (workerStep env bucket downloadPath overwrite file).actions ++
            (runWorkers env bucket downloadPath overwrite rest).actions } := by
  have hstep : workerStep env bucket downloadPath overwrite file =
      { events := [],
        errs := [match env.download file.key with
                 | SdkResult.canceled => GoError.downloadCanceled
                 | _ => GoError.downloadFailed file.key],
        actions :=
          [Action.mkdirAll (filepathDir (filepathJoin downloadPath file.key)),
           Action.statFile (filepathJoin downloadPath file.key),
           Action.mkdirAll (filepathDir (filepathJoin downloadPath file.key)),
           Action.createFile (filepathJoin downloadPath file.key),
           Action.download bucket file.key,
           Action.removeFile (filepathJoin downloadPath file.key)] } := by
    cases hd : env.download file.key with
    | ok => exact absurd hd hdl
    | canceled =>
        simp [workerStep, downloadFile, ensureDirectoryExists, fileExists,
          filepathDir_ne_empty, hmk, hsk, hcr, hd]
    | failed =>
        simp [workerStep, downloadFile, ensureDirectoryExists, fileExists,
          filepathDir_ne_empty, hmk, hsk, hcr, hd]
  refine ⟨hstep, ?_, ?_⟩
  · rw [hstep]
    simp [List.count_cons]
  · simp only [runWorkers]
    rw [hstep]
    simp

/-- Closed instance of C4: a failing transfer of `f.txt` leaves no counter
mutation, sends its error, and removes the partial file after the single
download attempt. -/
theorem C4_transfer_failure_cleanup_witness :
    envDownloadFails.mkdirAllOk
        (filepathDir (filepathJoin "/dest" (S3Object.key ⟨"f.txt", 7⟩)))
      = true ∧
    (envDownloadFails.statOk (filepathJoin "/dest" (S3Object.key ⟨"f.txt", 7⟩))
        && !false) = false ∧
    envDownloadFails.createOk (filepathJoin "/dest" (S3Object.key ⟨"f.txt", 7⟩))
      = true ∧
    envDownloadFails.download (S3Object.key ⟨"f.txt", 7⟩) ≠ SdkResult.ok ∧
    workerStep envDownloadFails "b" "/dest" false ⟨"f.txt", 7⟩ =
      { events := [],
        errs := [GoError.downloadFailed "f.txt"],
        actions :=
          [Action.mkdirAll "/dest", Action.statFile "/dest/f.txt",
           Action.mkdirAll "/dest", Action.createFile "/dest/f.txt",
           Action.download "b" "f.txt", Action.removeFile "/dest/f.txt"] } := by
  refine ⟨by decide, by decide, by decide, by decide, ?_⟩
  have h := (C4_transfer_failure_cleanup envDownloadFails "b" "/dest" false
    ⟨"f.txt", 7⟩ [] (by decide) (by decide) (by decide) (by decide)).1
  rw [h]
  decide

/-! ## Counter-event accounting -/

/-- Folding a concatenation of mutation sequences. -/
theorem applyEvents_append (c : Counters) (es fs : List CounterEvent) :
    applyEvents c (es ++ fs) = applyEvents (applyEvents c es) fs :=
  List.foldl_append _ _ _ _

/-- Mutations that never touch the error counter leave it unchanged. -/
theorem errorCount_applyEvents_of_no_addErrors (es : List CounterEvent)
    (h : ∀ n : Int, CounterEvent.addErrors n ∉ es) (c : Counters) :
    (applyEvents c es).errorCount = c.errorCount := by
  induction es generalizing c with
  | nil => rfl
  | cons e es ih =>
      have he : ∀ n : Int, CounterEvent.addErrors n ∉ es := by
        intro n hn
        exact h n (List.mem_cons_of_mem _ hn)
      rw [show applyEvents c (e :: es) = applyEvents (applyEvent c e) es
        from rfl, ih he]
      cases e with
      | addErrors n => exact absurd (List.mem_cons_self _ _) (h n)
      | addFound n => rfl
      | addProcessed n => rfl
      | addSkipped n => rfl
      | addBytes n => rfl

/-- The drain loop's mutations add exactly one per collected error. -/
theorem errorCount_applyEvents_drain (l : List GoError) (c : Counters) :
    (applyEvents c (l.map fun _ => CounterEvent.addErrors 1)).errorCount =
      c.errorCount + (l.length : Int) := by
  induction l generalizing c with
  | nil => simp [applyEvents]
  | cons e l ih =>
      rw [List.map_cons,
        show applyEvents c (CounterEvent.addErrors 1 ::
          (l.map fun _ => CounterEvent.addErrors 1)) =
          applyEvents (applyEvent c (CounterEvent.addErrors 1))
            (l.map fun _ => CounterEvent.addErrors 1) from rfl, ih]
      show c.errorCount + 1 + (l.length : Int) = c.errorCount + ((l.length + 1 : Nat) : Int)
      omega

/-- A worker never mutates the error counter: its counter events are only
skip/processed/bytes increments. -/
theorem workerStep_no_addErrors (env : Env) (bucket downloadPath : String)
    (overwrite : Bool) (file : S3Object) (n : Int) :
    CounterEvent.addErrors n ∉
      (workerStep env bucket downloadPath overwrite file).events := by
  unfold workerStep
  dsimp only
  split
  · simp
  · split
    · simp
    · split <;> simp

/-- The whole worker pool never mutates the error counter. -/
theorem runWorkers_no_addErrors (env : Env) (bucket downloadPath : String)
    (overwrite : Bool) (queue : List S3Object) (n : Int) :
    CounterEvent.addErrors n ∉
      (runWorkers env bucket downloadPath overwrite queue).events := by
  induction queue with
  | nil => simp [runWorkers]
  | cons obj rest ih =>
      simp only [runWorkers, List.mem_append]
      rintro (h | h)
      · exact workerStep_no_addErrors env bucket downloadPath overwrite obj n h
      · exact ih h

/-! ## Claim C6 -/

/-- The collected error list of a natural run, unfolded: the worker errors
(blocking sends, all delivered in a run that completes), then the lister's
single non-blocking send, dropped when the buffer of capacity `maxWorkers`
is already full. -/
theorem naturalRun_errsCollected_def (env : Env) (bucket downloadPath : String)
    (overwrite : Bool) (maxWorkers : Nat) (listing : List S3Object)
    (listingErr : Bool) :
    (naturalRun env bucket downloadPath overwrite maxWorkers listing
        listingErr).errsCollected =
      if listingErr then
        trySendErr maxWorkers
          (naturalRun env bucket downloadPath overwrite maxWorkers listing
            listingErr).workerErrs GoError.listingFailed
      else
        (naturalRun env bucket downloadPath overwrite maxWorkers listing
          listingErr).workerErrs := rfl

/-- C6 fails on the code: with one worker error already filling the
one-slot error buffer and a listing failure whose non-blocking send is
dropped, two errors occurred but the final `ErrorCount` is 1, because the
drain loop (lines 236-242) increments the error counter only once per
error actually received from the channel. -/
theorem C6_counterexample :
    (naturalRun envMkdirFails "b" "/dest" false 1 [⟨"x.txt", 5⟩]
        true).workerErrs.length = 1 ∧
    (naturalRun envMkdirFails "b" "/dest" false 1 [⟨"x.txt", 5⟩]
        true).errsCollected.length = 1 ∧
    (naturalRun envMkdirFails "b" "/dest" false 1 [⟨"x.txt", 5⟩]
        true).finalProgress.errorCount = 1 ∧
    (naturalRun envMkdirFails "b" "/dest" false 1 [⟨"x.txt", 5⟩]
        true).finalProgress.errorCount ≠
      ((naturalRun envMkdirFails "b" "/dest" false 1 [⟨"x.txt", 5⟩]
        true).workerErrs.length : Int) + 1 := by
  decide

/-- C6 amended: the final error count equals the number of errors actually
collected from the error channel, not the number that occurred; an error
arriving at a full buffer (the lister's non-blocking send when the workers
already queued at least `maxWorkers` errors) is dropped from reporting and
from the count alike. -/
theorem C6_errorCount_equals_collected (env : Env)
    (bucket downloadPath : String) (overwrite : Bool) (maxWorkers : Nat)
    (listing : List S3Object) (listingErr : Bool) :
    (naturalRun env bucket downloadPath overwrite maxWorkers listing
        listingErr).counters.errorCount =
      ((naturalRun env bucket downloadPath overwrite maxWorkers listing
        listingErr).errsCollected.length : Int) ∧
    (naturalRun env bucket downloadPath overwrite maxWorkers listing
        listingErr).finalProgress.errorCount =
      ((naturalRun env bucket downloadPath overwrite maxWorkers listing
        listingErr).errsCollected.length : Int) ∧
    (listingErr = true →
      maxWorkers ≤
        (naturalRun env bucket downloadPath overwrite maxWorkers listing
          listingErr).workerErrs.length →
      (naturalRun env bucket downloadPath overwrite maxWorkers listing
          listingErr).errsCollected =
        (naturalRun env bucket downloadPath overwrite maxWorkers listing
          listingErr).workerErrs) := by
  have hev : (naturalRun env bucket downloadPath overwrite maxWorkers listing
      listingErr).events =
      (((enqueuedObjects listing).map fun _ => CounterEvent.addFound 1) ++
        (runWorkers env bucket downloadPath overwrite
          (enqueuedObjects listing)).events) ++
      ((naturalRun env bucket downloadPath overwrite maxWorkers listing
        listingErr).errsCollected.map fun _ => CounterEvent.addErrors 1) := by
    show (((enqueuedObjects listing).map fun _ => CounterEvent.addFound 1) ++
        (runWorkers env bucket downloadPath overwrite
          (enqueuedObjects listing)).events) ++ _ = _
    rfl
  have hcount : (naturalRun env bucket downloadPath overwrite maxWorkers
      listing listingErr).counters.errorCount =
      ((naturalRun env bucket downloadPath overwrite maxWorkers listing
        listingErr).errsCollected.length : Int) := by
    show (applyEvents Counters.init
      (naturalRun env bucket downloadPath overwrite maxWorkers listing
        listingErr).events).errorCount = _
    rw [hev, applyEvents_append, errorCount_applyEvents_drain,
      errorCount_applyEvents_of_no_addErrors]
    · show (0 : Int) + _ = _
      ring
    · intro n hn
      rcases List.mem_append.mp hn with h | h
      · rcases List.mem_map.mp h with ⟨_, _, h⟩
        cases h
      · exact runWorkers_no_addErrors env bucket downloadPath overwrite
          (enqueuedObjects listing) n h
  refine ⟨hcount, hcount, ?_⟩
  intro hl hw
  subst hl
  rw [naturalRun_errsCollected_def]
  simp only [if_true]
  unfold trySendErr
  rw [if_neg (by omega)]

/-- Closed instance of the amended C6: the dropped lister error is
uncounted, the final error count is the collected one. -/
theorem C6_errorCount_equals_collected_witness :
    (naturalRun envMkdirFails "b" "/dest" false 1 [⟨"x.txt", 5⟩]
        true).finalProgress.errorCount =
      ((naturalRun envMkdirFails "b" "/dest" false 1 [⟨"x.txt", 5⟩]
        true).errsCollected.length : Int) ∧
    (true = true) ∧
    1 ≤ (naturalRun envMkdirFails "b" "/dest" false 1 [⟨"x.txt", 5⟩]
        true).workerErrs.length ∧
    (naturalRun envMkdirFails "b" "/dest" false 1 [⟨"x.txt", 5⟩]
        true).errsCollected =
      (naturalRun envMkdirFails "b" "/dest" false 1 [⟨"x.txt", 5⟩]
        true).workerErrs :=
  ⟨(C6_errorCount_equals_collected envMkdirFails "b" "/dest" false 1
      [⟨"x.txt", 5⟩] true).2.1, rfl, by decide,
   (C6_errorCount_equals_collected envMkdirFails "b" "/dest" false 1
      [⟨"x.txt", 5⟩] true).2.2 rfl (by decide)⟩

/-! ## Claim C8 -/

/-- C8: for a destination root `D` given by clean components and an
object key `a/…/f` with at least one directory component (all components
clean), the worker resolves the local path as `filepath.Join(D, key)`,
which equals the verbatim concatenation `D ++ "/" ++ key`; the directory
it ensures is `D` extended by all of the key's directory components, and
`os.MkdirAll` of that path creates every implied parent (`D/a`,
`D/a/b`, …); and the worker's action trace performs the directory
creation strictly before the file creation, which happens strictly before
the transfer.  Hypotheses put the object on the successful transfer path
of `downloadWorker`. -/
theorem C8_key_hierarchy_reproduced (env : Env) (bucket : String)
    (overwrite : Bool) (size : Int) (dcomps kdirs : List String)
    (kfile : String)
    (hd : dcomps ≠ []) (hk : kdirs ≠ [])
    (hgd : ∀ s ∈ dcomps, goodComp s) (hgk : ∀ s ∈ kdirs, goodComp s)
    (hgf : goodComp kfile)
    (hmk : env.mkdirAllOk (rootedPath (dcomps ++ kdirs)) = true)
    (hex : env.statOk (rootedPath (dcomps ++ kdirs ++ [kfile])) = false)
    (hcr : env.createOk (rootedPath (dcomps ++ kdirs ++ [kfile])) = true)
    (hok : env.download (joinComps (kdirs ++ [kfile])) = SdkResult.ok) :
    filepathJoin (rootedPath dcomps) (joinComps (kdirs ++ [kfile])) =
      rootedPath dcomps ++ "/" ++ joinComps (kdirs ++ [kfile]) ∧
    filepathDir (filepathJoin (rootedPath dcomps)
        (joinComps (kdirs ++ [kfile]))) = rootedPath (dcomps ++ kdirs) ∧
    (∀ j, 1 ≤ j → j ≤ kdirs.length →
      rootedPath (dcomps ++ kdirs.take j) ∈
        mkdirAllCreates (rootedPath (dcomps ++ kdirs))) ∧
    workerStep env bucket (rootedPath dcomps) overwrite
        ⟨joinComps (kdirs ++ [kfile]), size⟩ =
      { events := [CounterEvent.addProcessed 1, CounterEvent.addBytes size],
        errs := [],
        actions :=
          [Action.mkdirAll (rootedPath (dcomps ++ kdirs)),
           Action.statFile (rootedPath (dcomps ++ kdirs ++ [kfile])),
           Action.mkdirAll (rootedPath (dcomps ++ kdirs)),
           Action.createFile (rootedPath (dcomps ++ kdirs ++ [kfile])),
           Action.download bucket (joinComps (kdirs ++ [kfile]))] } := by
  have hkf : kdirs ++ [kfile] ≠ [] := by simp
  have hgkf : ∀ s ∈ kdirs ++ [kfile], goodComp s := by
    intro s hs
    rcases List.mem_append.mp hs with hm | hm
    · exact hgk s hm
    · simp at hm
      subst hm
      exact hgf
  have hgdk : ∀ s ∈ dcomps ++ kdirs, goodComp s := by
    intro s hs
    rcases List.mem_append.mp hs with hm | hm
    · exact hgd s hm
    · exact hgk s hm
  have hjoin : filepathJoin (rootedPath dcomps)
      (joinComps (kdirs ++ [kfile])) =
      rootedPath (dcomps ++ kdirs ++ [kfile]) := by
    rw [filepathJoin_rooted dcomps (kdirs ++ [kfile]) hd hkf hgd hgkf,
      List.append_assoc]
  have hA : rootedPath dcomps ++ "/" ++ joinComps (kdirs ++ [kfile]) =
      rootedPath (dcomps ++ kdirs ++ [kfile]) := by
    rw [rootedPath_append dcomps (kdirs ++ [kfile]) hd hkf,
      List.append_assoc]
  have hdir : filepathDir (rootedPath (dcomps ++ kdirs ++ [kfile])) =
      rootedPath (dcomps ++ kdirs) :=
    filepathDir_rootedPath (dcomps ++ kdirs) kfile (by simp [hd]) hgdk hgf
  refine ⟨hjoin.trans hA.symm, ?_, ?_, ?_⟩
  · rw [hjoin, hdir]
  · intro j hj1 hj2
    exact rootedPath_mem_mkdirAllCreates dcomps kdirs j hd hgd hgk hj1 hj2
  · have hdir2 : filepathDir (rootedPath (dcomps ++ (kdirs ++ [kfile]))) =
        rootedPath (dcomps ++ kdirs) := by
      rw [← List.append_assoc]
      exact hdir
    have hex2 : env.statOk (rootedPath (dcomps ++ (kdirs ++ [kfile]))) =
        false := by
      rw [← List.append_assoc]
      exact hex
    have hcr2 : env.createOk (rootedPath (dcomps ++ (kdirs ++ [kfile]))) =
        true := by
      rw [← List.append_assoc]
      exact hcr
    simp [workerStep, downloadFile, ensureDirectoryExists, fileExists,
      hjoin, hdir2, rootedPath_ne_empty, hmk, hex2, hcr2, hok]

/-- Closed instance of C8: key `a/b/c.txt` under root `/dest` resolves to
`/dest/a/b/c.txt`, with `/dest/a` and `/dest/a/b` among the directories
created before the file is created and the transfer attempted. -/
theorem C8_key_hierarchy_reproduced_witness :
    filepathJoin (rootedPath ["dest"]) (joinComps (["a", "b"] ++ ["c.txt"])) =
      rootedPath ["dest"] ++ "/" ++ joinComps (["a", "b"] ++ ["c.txt"]) ∧
    filepathDir (filepathJoin (rootedPath ["dest"])
        (joinComps (["a", "b"] ++ ["c.txt"]))) =
      rootedPath (["dest"] ++ ["a", "b"]) ∧
    rootedPath (["dest"] ++ ["a", "b"].take 1) ∈
      mkdirAllCreates (rootedPath (["dest"] ++ ["a", "b"])) ∧
    rootedPath (["dest"] ++ ["a", "b"].take 2) ∈
      mkdirAllCreates (rootedPath (["dest"] ++ ["a", "b"])) ∧
    workerStep envAllOk "b" (rootedPath ["dest"]) false
        ⟨joinComps (["a", "b"] ++ ["c.txt"]), 7⟩ =
      { events := [CounterEvent.addProcessed 1, CounterEvent.addBytes 7],
        errs := [],
        actions :=
          [Action.mkdirAll (rootedPath (["dest"] ++ ["a", "b"])),
           Action.statFile (rootedPath (["dest"] ++ ["a", "b"] ++ ["c.txt"])),
           Action.mkdirAll (rootedPath (["dest"] ++ ["a", "b"])),
           Action.createFile
             (rootedPath (["dest"] ++ ["a", "b"] ++ ["c.txt"])),
           Action.download "b" (joinComps (["a", "b"] ++ ["c.txt"]))] } := by
  have h := C8_key_hierarchy_reproduced envAllOk "b" false 7 ["dest"]
    ["a", "b"] "c.txt" (by decide) (by decide) (by decide) (by decide)
    (by decide) (by decide) (by decide) (by decide) (by decide)
  exact ⟨h.1, h.2.1, h.2.2.1 1 (by decide) (by decide),
    h.2.2.1 2 (by decide) (by decide), h.2.2.2⟩

/-! ## Claim C9 -/

/-- Transitivity of the componentwise counter order. -/
theorem counters_le_trans {a b c : Counters} (h1 : Counters.le a b)
    (h2 : Counters.le b c) : Counters.le a c :=
  ⟨le_trans h1.1 h2.1, le_trans h1.2.1 h2.2.1, le_trans h1.2.2.1 h2.2.2.1,
   le_trans h1.2.2.2.1 h2.2.2.2.1, le_trans h1.2.2.2.2 h2.2.2.2.2⟩

/-- One atomic add of a non-negative amount never decreases any counter. -/
theorem applyEvent_le (c : Counters) (e : CounterEvent) (h : 0 ≤ e.amount) :
    Counters.le c (applyEvent c e) := by
  cases e with
  | addFound n =>
      simp only [CounterEvent.amount] at h
      exact ⟨by show c.foundFiles ≤ c.foundFiles + n; omega,
             le_refl _, le_refl _, le_refl _, le_refl _⟩
  | addProcessed n =>
      simp only [CounterEvent.amount] at h
      exact ⟨le_refl _,
             by show c.processedFiles ≤ c.processedFiles + n; omega,
             le_refl _, le_refl _, le_refl _⟩
  | addSkipped n =>
      simp only [CounterEvent.amount] at h
      exact ⟨le_refl _, le_refl _,
             by show c.skippedFiles ≤ c.skippedFiles + n; omega,
             le_refl _, le_refl _⟩
  | addBytes n =>
      simp only [CounterEvent.amount] at h
      exact ⟨le_refl _, le_refl _, le_refl _,
             by show c.totalBytes ≤ c.totalBytes + n; omega,
             le_refl _⟩
  | addErrors n =>
      simp only [CounterEvent.amount] at h
      exact ⟨le_refl _, le_refl _, le_refl _, le_refl _,
             by show c.errorCount ≤ c.errorCount + n; omega⟩

/-- A sequence of atomic adds of non-negative amounts never decreases any
counter. -/
theorem applyEvents_le (es : List CounterEvent)
    (h : ∀ e ∈ es, 0 ≤ e.amount) (c : Counters) :
    Counters.le c (applyEvents c es) := by
  induction es generalizing c with
  | nil => exact ⟨le_refl _, le_refl _, le_refl _, le_refl _, le_refl _⟩
  | cons e es ih =>
      have h1 : Counters.le c (applyEvent c e) :=
        applyEvent_le c e (h e (List.mem_cons_self _ _))
      have h2 : Counters.le (applyEvent c e) (applyEvents (applyEvent c e) es) :=
        ih (fun f hf => h f (List.mem_cons_of_mem _ hf)) _
      exact counters_le_trans h1 h2

/-- Every counter event of one worker iteration adds a non-negative
amount (the byte add is the object's size). -/
theorem workerStep_events_nonneg (env : Env) (bucket downloadPath : String)
    (overwrite : Bool) (file : S3Object) (hsz : 0 ≤ file.size) :
    ∀ e ∈ (workerStep env bucket downloadPath overwrite file).events,
      0 ≤ e.amount := by
  unfold workerStep
  dsimp only
  split
  · simp
  · split
    · intro e he
      rcases List.mem_cons.mp he with h | h
      · subst h; decide
      · rcases List.mem_cons.mp h with h | h
        · subst h; decide
        · exact absurd h (List.not_mem_nil e)
    · split
      · simp
      · intro e he
        rcases List.mem_cons.mp he with h | h
        · subst h; decide
        · rcases List.mem_cons.mp h with h | h
          · subst h; exact hsz
          · exact absurd h (List.not_mem_nil e)

/-- Every counter event of the worker pool adds a non-negative amount. -/
theorem runWorkers_events_nonneg (env : Env) (bucket downloadPath : String)
    (overwrite : Bool) (queue : List S3Object)
    (hsz : ∀ obj ∈ queue, 0 ≤ obj.size) :
    ∀ e ∈ (runWorkers env bucket downloadPath overwrite queue).events,
      0 ≤ e.amount := by
  induction queue with
  | nil => simp [runWorkers]
  | cons obj rest ih =>
      intro e he
      rcases List.mem_append.mp he with h | h
      · exact workerStep_events_nonneg env bucket downloadPath overwrite obj
          (hsz obj (List.mem_cons_self _ _)) e h
      · exact ih (fun o ho => hsz o (List.mem_cons_of_mem _ ho)) e h

/-- C9: within one invocation every counter mutation is an atomic add of a
non-negative amount (object sizes are non-negative, as S3 listings
guarantee), the final counters are exactly the fold of those mutations
from the fresh per-invocation zero state, and therefore along any prefix
of the mutation sequence every counter is monotonically non-decreasing. -/
theorem C9_counters_monotone (env : Env) (bucket downloadPath : String)
    (overwrite : Bool) (maxWorkers : Nat) (listing : List S3Object)
    (listingErr : Bool) (hsz : ∀ obj ∈ listing, 0 ≤ obj.size) :
    (∀ e ∈ (naturalRun env bucket downloadPath overwrite maxWorkers listing
        listingErr).events, 0 ≤ e.amount) ∧
    (naturalRun env bucket downloadPath overwrite maxWorkers listing
        listingErr).counters =
      applyEvents Counters.init
        (naturalRun env bucket downloadPath overwrite maxWorkers listing
          listingErr).events ∧
    (∀ es₁ es₂,
      (naturalRun env bucket downloadPath overwrite maxWorkers listing
        listingErr).events = es₁ ++ es₂ →
      Counters.le (applyEvents Counters.init es₁)
        (applyEvents Counters.init (es₁ ++ es₂))) := by
  have hev : (naturalRun env bucket downloadPath overwrite maxWorkers listing
      listingErr).events =
      (((enqueuedObjects listing).map fun _ => CounterEvent.addFound 1) ++
        (runWorkers env bucket downloadPath overwrite
          (enqueuedObjects listing)).events) ++
      ((naturalRun env bucket downloadPath overwrite maxWorkers listing
        listingErr).errsCollected.map fun _ => CounterEvent.addErrors 1) := by
    show (((enqueuedObjects listing).map fun _ => CounterEvent.addFound 1) ++
        (runWorkers env bucket downloadPath overwrite
          (enqueuedObjects listing)).events) ++ _ = _
    rfl
  have hnonneg : ∀ e ∈ (naturalRun env bucket downloadPath overwrite
      maxWorkers listing listingErr).events, 0 ≤ e.amount := by
    rw [hev]
    intro e he
    rcases List.mem_append.mp he with h | h
    · rcases List.mem_append.mp h with h | h
      · rcases List.mem_map.mp h with ⟨_, _, h⟩
        subst h; decide
      · refine runWorkers_events_nonneg env bucket downloadPath overwrite
          (enqueuedObjects listing) ?_ e h
        intro obj ho
        exact hsz obj (List.mem_filter.mp ho).1
    · rcases List.mem_map.mp h with ⟨_, _, h⟩
      subst h; decide
  refine ⟨hnonneg, rfl, ?_⟩
  intro es₁ es₂ hsplit
  rw [applyEvents_append]
  apply applyEvents_le
  intro e he
  exact hnonneg e (hsplit ▸ List.mem_append_right es₁ he)

/-- Closed instance of C9: in the three-object run, the counters after the
first four mutations are dominated by the final counters. -/
theorem C9_counters_monotone_witness :
    (∀ obj ∈ listing3, 0 ≤ obj.size) ∧
    Counters.le
      (applyEvents Counters.init
        ((naturalRun envAllOk "b" "/dest" false 2 listing3
          false).events.take 4))
      (applyEvents Counters.init
        ((naturalRun envAllOk "b" "/dest" false 2 listing3
            false).events.take 4 ++
          (naturalRun envAllOk "b" "/dest" false 2 listing3
            false).events.drop 4)) :=
  ⟨by decide,
   (C9_counters_monotone envAllOk "b" "/dest" false 2 listing3 false
      (by decide)).2.2 _ _ (List.take_append_drop 4 _).symm⟩

end S3Down
